import Mathlib

/-!
Verification development for the solace-adapter Policy Enforcement Point.

The definitions below are a shallow embedding of the TypeScript sources:

* `canonicalize`, `computeExecuteHash`, `computeIntentHash` — src/canonical.ts
* `signReceipt`, `verifyReceipt` — src/receipt.ts
* `decodeReceiptHeader`, `verifyExecutorRequest` — src/executorVerifier.ts
* `SolaceCoreClient.execute` — src/coreClient.ts
* `forwardToExecutor` — src/forwarding.ts
* `gateAndForward` — src/gate.ts (prefix-routing version)

JavaScript values are modelled by the inductive `Json` (numbers restricted to
integers; JS strings are modelled by Lean `String`, i.e. sequences of Unicode
scalar values, with UTF-16 code-unit sequences derived by `utf16Units`).
External effects (HTTP responses, the system clock, UUID generation, SHA-256,
Ed25519 sign/verify, `JSON.parse`, `Date` parsing) are passed in as explicit
function arguments, so every definition is executable and the control flow of
the source is preserved exactly.
-/

/-- Model of a JSON/JS value. Numbers are restricted to integers, which covers
every value the claims exercise; object fields are an association list in
insertion order, mirroring a JS object's property order. -/
inductive Json where
  | null
  | bool (b : Bool)
  | num (n : Int)
  | str (s : String)
  | arr (elems : List Json)
  | obj (fields : List (String × Json))

namespace Json

/-- Property lookup `v[k]`: `none` models JS `undefined` (absent property or
non-object receiver). -/
def jget : Json → String → Option Json
  | obj kvs, k => kvs.lookup k
  | _, _ => none

/-- JS truthiness of a value: `null`, `false`, `0` and `""` are falsy,
everything else (including every object and array) is truthy. -/
def truthy : Json → Bool
  | null => false
  | bool b => b
  | num n => n != 0
  | str s => s ≠ ""
  | arr _ => true
  | obj _ => true

/-- JS truthiness of a possibly-`undefined` value (`undefined` is falsy). -/
def otruthy : Option Json → Bool
  | none => false
  | some v => truthy v

/-- JS `String(v)` coercion for the values the adapter can meet in the
`action` position. -/
def jsToString : Json → String
  | null => "null"
  | bool b => if b then "true" else "false"
  | num n => toString n
  | str s => s
  | arr _ => "[array]"
  | obj _ => "[object Object]"

end Json

/-! UTF-16 code units and the default JS `Array.prototype.sort` string order. -/

/-- UTF-16 code-unit sequence of a string: scalar values below `0x10000` give
one unit, supplementary-plane characters give a surrogate pair. -/
def utf16Units (s : String) : List Nat :=
  s.data.flatMap (fun c =>
    let n := c.toNat
    if n < 0x10000 then [n]
    else
      let v := n - 0x10000
      [0xD800 + v / 0x400, 0xDC00 + v % 0x400])

/-- Lexicographic order on lists of naturals, as a boolean. -/
def lexLeN : List Nat → List Nat → Bool
  | [], _ => true
  | _ :: _, [] => false
  | a :: as, b :: bs => if a < b then true else if a > b then false else lexLeN as bs

/-- Default JS string comparison (`a <= b`): lexicographic on UTF-16 code
units. This is the order `Array.prototype.sort()` uses for `Object.keys`. -/
def jsStrLe (a b : String) : Bool :=
  lexLeN (utf16Units a) (utf16Units b)

/-- Ascending Unicode code-point comparison of strings (the order the spec
names). It agrees with `jsStrLe` on strings made of BMP characters only. -/
def codePointLe (a b : String) : Bool :=
  lexLeN (a.data.map Char.toNat) (b.data.map Char.toNat)

/-- Insert one key/value pair into a key-sorted list (insertion step of the
sort that models `Object.keys(value).sort()`). -/
def insertKV (p : String × Json) : List (String × Json) → List (String × Json)
  | [] => [p]
  | q :: qs => if jsStrLe p.1 q.1 then p :: q :: qs else q :: insertKV p qs

/-- Sort an association list by key in default-JS string order, modelling
`Object.keys(value).sort()` followed by re-insertion of the values. -/
def sortKVs : List (String × Json) → List (String × Json)
  | [] => []
  | p :: ps => insertKV p (sortKVs ps)

/-! Canonicalizer (src/canonical.ts). -/

mutual

/-- Model of the recursive `stableSort` of src/canonical.ts: arrays map,
objects get their keys sorted (default JS sort) and values recursed. -/
def stableSort : Json → Json
  | .null => .null
  | .bool b => .bool b
  | .num n => .num n
  | .str s => .str s
  | .arr xs => .arr (stableSortList xs)
  | .obj kvs => .obj (sortKVs (stableSortKVs kvs))

def stableSortList : List Json → List Json
  | [] => []
  | x :: xs => stableSort x :: stableSortList xs

def stableSortKVs : List (String × Json) → List (String × Json)
  | [] => []
  | (k, v) :: kvs => (k, stableSort v) :: stableSortKVs kvs

end

/-- JSON string escaping as performed by `JSON.stringify` on strings of
Unicode scalar values (quote, backslash, and control characters). -/
def jsonEscapeChar (c : Char) : String :=
  if c = '"' then "\\\""
  else if c = '\\' then "\\\\"
  else if c.toNat = 0x08 then "\\b"
  else if c.toNat = 0x0C then "\\f"
  else if c = '\n' then "\\n"
  else if c = '\r' then "\\r"
  else if c = '\t' then "\\t"
  else if c.toNat < 0x20 then
    "\\u00" ++ String.mk [(Nat.digitChar (c.toNat / 16)), (Nat.digitChar (c.toNat % 16))]
  else String.mk [c]

/-- Model of `JSON.stringify` on a string value. -/
def jsonQuote (s : String) : String :=
  "\"" ++ String.join (s.data.map jsonEscapeChar) ++ "\""

mutual

/-- Model of `JSON.stringify` (no whitespace, insertion order preserved);
`canonicalize` composes it with `stableSort` exactly as the source does. -/
def stringify : Json → String
  | .null => "null"
  | .bool b => if b then "true" else "false"
  | .num n => toString n
  | .str s => jsonQuote s
  | .arr xs => "[" ++ String.intercalate "," (stringifyList xs) ++ "]"
  | .obj kvs => "\x7b" ++ String.intercalate "," (stringifyKVs kvs) ++ "\x7d"

def stringifyList : List Json → List String
  | [] => []
  | x :: xs => stringify x :: stringifyList xs

def stringifyKVs : List (String × Json) → List String
  | [] => []
  | (k, v) :: kvs => (jsonQuote k ++ ":" ++ stringify v) :: stringifyKVs kvs

end

/-- Model of `canonicalize` from src/canonical.ts:
`JSON.stringify(stableSort(value))`. -/
def canonicalize (value : Json) : String :=
  stringify (stableSort value)

/-- Model of `computeExecuteHash` from src/canonical.ts; `sha256Hex` is passed
in as the function argument `hash`. -/
def computeExecuteHash (hash : String → String) (execute : Json) : String :=
  hash (canonicalize execute)

/-- Model of `computeIntentHash` from src/canonical.ts. -/
def computeIntentHash (hash : String → String) (intent : Json) : String :=
  hash (canonicalize intent)

/-! Receipts (src/receipt.ts). -/

/-- Receipt record minted by the adapter (src/types.ts). `Option` fields with
`none` model JS `undefined` (the property is omitted when serialized), except
`authorityKeyId`, where `none` models JSON `null` (signReceipt always stores
`authorityKeyId ?? null`). -/
structure Receipt where
  v : Int
  receiptId : String
  adapterId : String
  service : String
  actorId : String
  intent : String
  executeHash : String
  intentHash : String
  coreDecision : String
  coreIssuedAt : Option String
  coreExpiresAt : Option String
  coreTime : Option String
  authorityKeyId : Option String
  issuedAt : String
  expiresAt : String
  signature : String

/-- JSON object for the receipt minus its `signature` field, property order as
constructed in `signReceipt`; `undefined` optionals are omitted exactly as
`JSON.stringify` omits them. -/
def Receipt.unsignedJson (r : Receipt) : Json :=
  Json.obj
    ([("v", Json.num r.v),
      ("receiptId", Json.str r.receiptId),
      ("adapterId", Json.str r.adapterId),
      ("service", Json.str r.service),
      ("actorId", Json.str r.actorId),
      ("intent", Json.str r.intent),
      ("executeHash", Json.str r.executeHash),
      ("intentHash", Json.str r.intentHash),
      ("coreDecision", Json.str r.coreDecision)]
     ++ (match r.coreIssuedAt with
         | some s => [("coreIssuedAt", Json.str s)]
         | none => [])
     ++ (match r.coreExpiresAt with
         | some s => [("coreExpiresAt", Json.str s)]
         | none => [])
     ++ (match r.coreTime with
         | some s => [("coreTime", Json.str s)]
         | none => [])
     ++ [("authorityKeyId", match r.authorityKeyId with
          | some s => Json.str s
          | none => Json.null),
         ("issuedAt", Json.str r.issuedAt),
         ("expiresAt", Json.str r.expiresAt)])

/-- Model of `receiptSigningMaterial`: canonical bytes of the receipt with the
signature excluded (the signature never signs itself). -/
def receiptSigningMaterial (r : Receipt) : String :=
  canonicalize r.unsignedJson

/-- Full receipt as JSON (for the `x-solace-receipt` header). -/
def Receipt.toJson (r : Receipt) : Json :=
  match r.unsignedJson with
  | Json.obj kvs => Json.obj (kvs ++ [("signature", Json.str r.signature)])
  | j => j

/-- Input record of `signReceipt` (src/receipt.ts). `authorityKeyId` is the
already-defaulted `string | null` (`none` = null). -/
structure SignReceiptParams where
  adapterId : String
  service : String
  actorId : String
  intent : String
  executeHash : String
  intentHash : String
  authorityKeyId : Option String
  coreIssuedAt : Option String
  coreExpiresAt : Option String
  coreTime : Option String
  receiptPrivateKeyPem : String
  receiptTtlSeconds : Int

/-- Model of `signReceipt` (src/receipt.ts). Effects are explicit arguments:
`signFn` is Ed25519 signing (private key PEM, material ↦ base64 signature),
`encodeIso` is `Date.prototype.toISOString` on a millisecond clock value,
`uuid` is the fresh `receiptId`, `now` the clock reading. ConfigError throws
of the source become `Except.error`. -/
def signReceipt (signFn : String → String → String) (encodeIso : Int → String)
    (uuid : String) (now : Int) (p : SignReceiptParams) : Except String Receipt :=
  if p.receiptPrivateKeyPem = "" then .error "missing_receipt_private_key_pem"
  else if p.adapterId = "" then .error "missing_adapterId"
  else if p.service = "" then .error "missing_service"
  else
    let unsigned : Receipt :=
      { v := 1
        receiptId := uuid
        adapterId := p.adapterId
        service := p.service
        actorId := p.actorId
        intent := p.intent
        executeHash := p.executeHash
        intentHash := p.intentHash
        coreDecision := "PERMIT"
        coreIssuedAt := p.coreIssuedAt
        coreExpiresAt := p.coreExpiresAt
        coreTime := p.coreTime
        authorityKeyId := p.authorityKeyId
        issuedAt := encodeIso now
        expiresAt := encodeIso (now + p.receiptTtlSeconds * 1000)
        signature := "" }
    .ok { unsigned with
          signature := signFn p.receiptPrivateKeyPem (receiptSigningMaterial unsigned) }

/-- Result record of `verifyReceipt`. -/
structure VerifyResult where
  ok : Bool
  reason : Option String

/-- Model of `verifyReceipt` (src/receipt.ts). `verifyFn` models Ed25519
verification (public key PEM, material, base64 signature ↦ Bool), `dateParse`
models `new Date(s).getTime()` with `none` for `NaN`, `now` is the clock in
milliseconds, `clockSkewSeconds` the already-defaulted skew. -/
def verifyReceipt (verifyFn : String → String → String → Bool)
    (dateParse : String → Option Int) (receipt : Receipt)
    (receiptPublicKeyPem : String) (now : Int) (clockSkewSeconds : Int) :
    VerifyResult :=
  let skew := clockSkewSeconds
  if receiptPublicKeyPem = "" then ⟨false, some "missing_receipt_public_key"⟩
  else if receipt.v ≠ 1 then ⟨false, some "invalid_receipt_version"⟩
  else if receipt.coreDecision ≠ "PERMIT" then ⟨false, some "receipt_not_permit"⟩
  else if receipt.signature = "" then ⟨false, some "missing_receipt_signature"⟩
  else
    match dateParse receipt.issuedAt, dateParse receipt.expiresAt with
    | some issuedAt, some expiresAt =>
      if ¬ (now + skew * 1000 ≥ issuedAt) then ⟨false, some "receipt_not_yet_valid"⟩
      else if ¬ (now - skew * 1000 ≤ expiresAt) then ⟨false, some "receipt_expired"⟩
      else if ¬ (verifyFn receiptPublicKeyPem (receiptSigningMaterial receipt)
                   receipt.signature) then ⟨false, some "invalid_receipt_signature"⟩
      else ⟨true, none⟩
    | _, _ => ⟨false, some "invalid_receipt_time_fields"⟩

/-- Modelled from the spec: the eight rejection predicates of §4.2 evaluated
in the listed order, earliest failure winning, with the time window accepted
exactly when `now ∈ [issuedAt − skew, expiresAt + skew]`. Used only to compare
against `verifyReceipt`. -/
def verifyReceiptSpecOrdered (verifyFn : String → String → String → Bool)
    (dateParse : String → Option Int) (receipt : Receipt)
    (receiptPublicKeyPem : String) (now : Int) (clockSkewSeconds : Int) :
    VerifyResult :=
  let skew := clockSkewSeconds
  if receiptPublicKeyPem = "" then ⟨false, some "missing_receipt_public_key"⟩
  else if receipt.v ≠ 1 then ⟨false, some "invalid_receipt_version"⟩
  else if receipt.coreDecision ≠ "PERMIT" then ⟨false, some "receipt_not_permit"⟩
  else if receipt.signature = "" then ⟨false, some "missing_receipt_signature"⟩
  else
    match dateParse receipt.issuedAt, dateParse receipt.expiresAt with
    | some issuedAt, some expiresAt =>
      if now < issuedAt - skew * 1000 then ⟨false, some "receipt_not_yet_valid"⟩
      else if now > expiresAt + skew * 1000 then ⟨false, some "receipt_expired"⟩
      else if ¬ (verifyFn receiptPublicKeyPem (receiptSigningMaterial receipt)
                   receipt.signature) then ⟨false, some "invalid_receipt_signature"⟩
      else ⟨true, none⟩
    | _, _ => ⟨false, some "invalid_receipt_time_fields"⟩

/-! Executor verifier (src/executorVerifier.ts). -/

/-- Result record of `verifyExecutorRequest`. -/
structure ExecVerifyResult where
  ok : Bool
  reason : Option String
  receipt : Option Receipt
  executeHash : Option String

/-- Model of `decodeReceiptHeader`: `dec` models base64-decoding plus
`JSON.parse` of the header value (returning `none` on any throw); a missing
or empty header yields `none`. -/
def decodeReceiptHeader (dec : String → Option Receipt) :
    Option String → Option Receipt
  | none => none
  | some hv => if hv = "" then none else dec hv

/-- Model of `verifyExecutorRequest` (src/executorVerifier.ts). -/
def verifyExecutorRequest (hash : String → String)
    (verifyFn : String → String → String → Bool)
    (dateParse : String → Option Int) (dec : String → Option Receipt)
    (receiptHeader : Option String) (receiptPublicKeyPem : String)
    (expectedService : String) (execute : Json) (now : Int)
    (clockSkewSeconds : Int) : ExecVerifyResult :=
  match decodeReceiptHeader dec receiptHeader with
  | none => ⟨false, some "missing_or_invalid_receipt_header", none, none⟩
  | some receipt =>
    if receipt.service ≠ expectedService then
      ⟨false, some "receipt_service_mismatch", none, none⟩
    else
      let v := verifyReceipt verifyFn dateParse receipt receiptPublicKeyPem now
        clockSkewSeconds
      if ¬ v.ok then ⟨false, some (v.reason.getD "invalid_receipt"), none, none⟩
      else
        let executeHash := computeExecuteHash hash execute
        if executeHash ≠ receipt.executeHash then
          ⟨false, some "execute_hash_mismatch", none, none⟩
        else ⟨true, none, some receipt, some executeHash⟩

/-! Core client (src/coreClient.ts). -/

/-- Outcome of one outbound `fetch`: either the promise rejects (network, DNS,
TLS, timeout abort) or a response arrives with a status and a body text. -/
inductive HttpOutcome where
  | netError
  | response (status : Int) (bodyText : String)

/-- Model of the `safeJson` helper (src/coreClient.ts and src/forwarding.ts):
empty body text gives `null`, a parse failure gives `{_raw: text}`. `parse`
models `JSON.parse` (`none` for a throw). -/
def safeJson (parse : String → Option Json) (text : String) : Json :=
  if text = "" then Json.null
  else
    match parse text with
    | some j => j
    | none => Json.obj [("_raw", Json.str text)]

/-- Normalized Core response (src/coreClient.ts `execute`). In
`authorityKeyId`, `none` models `undefined`, `some none` models `null`. -/
structure CoreExecuteResponse where
  decision : String
  reason : Option String
  executeHash : Option String
  intentHash : Option String
  issuedAt : Option String
  expiresAt : Option String
  time : Option String
  authorityKeyId : Option (Option String)
  error : Option String

/-- Synthetic fail-closed decision carrying only `decision` and `reason`. -/
def syntheticDeny (reason : String) : CoreExecuteResponse :=
  { decision := "DENY", reason := some reason, executeHash := none,
    intentHash := none, issuedAt := none, expiresAt := none, time := none,
    authorityKeyId := none, error := none }

/-- String-typed field extraction: `typeof data.k === "string" ? data.k :
undefined`. -/
def strField (data : Json) (k : String) : Option String :=
  match data.jget k with
  | some (Json.str s) => some s
  | _ => none

/-- Extraction for `authorityKeyId`: a string or `null` is preserved,
anything else becomes `undefined`. -/
def strOrNullField (data : Json) (k : String) : Option (Option String) :=
  match data.jget k with
  | some (Json.str s) => some (some s)
  | some Json.null => some none
  | _ => none

/-- The guard `!data || typeof data.decision !== "string"` of the source,
packaged as the extracted decision string (`none` when the guard fires). -/
def decisionField (data : Json) : Option String :=
  if data.truthy then
    match data.jget "decision" with
    | some (Json.str d) => some d
    | _ => none
  else none

/-- Whether an HTTP status is `res.ok` (2xx). -/
def httpOk (status : Int) : Prop :=
  200 ≤ status ∧ status ≤ 299

instance (status : Int) : Decidable (httpOk status) := by
  unfold httpOk; infer_instance

/-- Model of `SolaceCoreClient.execute` (src/coreClient.ts lines 171–252).
The entire body sits in a `try/catch` whose `catch` returns the synthetic
`core_unreachable` DENY, so the function is total: every failure mode maps to
a structured decision. -/
def SolaceCoreClient.execute (parse : String → Option Json)
    (out : HttpOutcome) : CoreExecuteResponse :=
  match out with
  | .netError => syntheticDeny "core_unreachable"
  | .response status text =>
    if ¬ httpOk status then syntheticDeny ("core_http_" ++ toString status)
    else
      let data := safeJson parse text
      match decisionField data with
      | none => syntheticDeny "core_malformed_response"
      | some d =>
        { decision := d
          reason := strField data "reason"
          executeHash := strField data "executeHash"
          intentHash := strField data "intentHash"
          issuedAt := strField data "issuedAt"
          expiresAt := strField data "expiresAt"
          time := strField data "time"
          authorityKeyId := strOrNullField data "authorityKeyId"
          error := strField data "error" }

/-! Forwarder (src/forwarding.ts). -/

/-- Forward target from the configuration (`{url, bearerToken?}`). -/
structure ForwardTarget where
  url : String
  bearerToken : Option String

/-- Runtime exception escaping a gate-pipeline function: a `ConfigError`, a
`ForwardingError`, or a rejected `fetch` promise. -/
inductive JsError where
  | config (msg : String)
  | forwarding (msg : String)
  | network

/-- The outbound request `forwardToExecutor` issues, with the observable
parts: URL, `x-solace-receipt` header, optional bearer authorization, and the
JSON body. -/
structure ForwardRequest where
  url : String
  receiptHeader : String
  authorization : Option String
  body : Json

/-- Model of `encodeReceiptHeader` (src/forwarding.ts): base64 of the JSON
receipt; `encB64` models `Buffer.from(json, "utf8").toString("base64")`. -/
def encodeReceiptHeader (encB64 : String → String) (r : Receipt) : String :=
  encB64 (stringify r.toJson)

/-- Body of the forwarded request: `{intent: envelope.intent, execute:
envelope.execute}` with `undefined` properties omitted, acceptance never
read. -/
def forwardBodyJson (envelope : Json) : Json :=
  Json.obj
    ((match envelope.jget "intent" with
      | some v => [("intent", v)]
      | none => []) ++
     (match envelope.jget "execute" with
      | some v => [("execute", v)]
      | none => []))

/-- Result of the forward call: executor status plus `safeJson` of its body. -/
structure ForwardResult where
  status : Int
  body : Json

/-- Model of `forwardToExecutor` (src/forwarding.ts lines 151–183). A missing
target throws `ForwardingError`; a rejected `fetch` promise is an uncaught
`network` error (the function has no try/catch). On success the issued
request is returned alongside the `{status, body}` result. -/
def forwardToExecutor (parse : String → Option Json) (encB64 : String → String)
    (targets : List (String × ForwardTarget)) (service : String)
    (envelope : Json) (receipt : Receipt) (out : HttpOutcome) :
    Except JsError (ForwardRequest × ForwardResult) :=
  match targets.lookup service with
  | none => .error (.forwarding "unknown_forward_target")
  | some target =>
    let req : ForwardRequest :=
      { url := target.url
        receiptHeader := encodeReceiptHeader encB64 receipt
        authorization := target.bearerToken.map (fun t => "Bearer " ++ t)
        body := forwardBodyJson envelope }
    match out with
    | .netError => .error .network
    | .response status text => .ok (req, { status, body := safeJson parse text })

/-! Gate orchestrator (src/gate.ts, prefix-routing version). -/

/-- Adapter configuration fields the gate reads. Object-typed fields
(`targets`) are modelled as always present, matching every configuration the
loader can produce. -/
structure AdapterCfg where
  adapterId : String
  receiptPrivateKeyPem : String
  receiptPublicKeyPem : String
  coreBaseUrl : String
  receiptTtlSeconds : Option Int
  clockSkewSeconds : Option Int
  targets : List (String × ForwardTarget)

/-- Model of `requireCfg` (src/gate.ts): ConfigError on a missing/empty
required string field. -/
def requireCfg (cfg : AdapterCfg) : Except String Unit :=
  if cfg.adapterId = "" then .error "missing_adapterId"
  else if cfg.receiptPrivateKeyPem = "" then .error "missing_receiptPrivateKeyPem"
  else if cfg.receiptPublicKeyPem = "" then .error "missing_receiptPublicKeyPem"
  else if cfg.coreBaseUrl = "" then .error "missing_core_base_url"
  else .ok ()

/-- Gate result record (`AdapterGateResult`). In `authorityKeyId`, `none`
models an absent field and `some none` models JSON `null`. -/
structure GateResult where
  decision : String
  reason : Option String
  receipt : Option Receipt
  forwardStatus : Option Int
  forwardBody : Option Json
  executeHash : Option String
  intentHash : Option String
  authorityKeyId : Option (Option String)

/-- Terminal DENY-style result carrying only a decision and a reason. -/
def bareResult (decision reason : String) : GateResult :=
  { decision, reason := some reason, receipt := none, forwardStatus := none,
    forwardBody := none, executeHash := none, intentHash := none,
    authorityKeyId := none }

/-- One run of `gateAndForward`: the returned value or escaped exception,
plus whether `forwardToExecutor` was invoked during the run. -/
structure GateRun where
  result : Except JsError GateResult
  forwardInvoked : Bool

/-- Envelope validity check of src/gate.ts lines 30–37: the four truthiness
tests `envelope?.intent?.actor?.id`, `envelope.intent.intent`,
`envelope.execute`, `envelope.acceptance`. -/
def envelopeValid (envelope : Json) : Bool :=
  Json.otruthy (((envelope.jget "intent").bind (·.jget "actor")).bind (·.jget "id")) &&
  Json.otruthy ((envelope.jget "intent").bind (·.jget "intent")) &&
  Json.otruthy (envelope.jget "execute") &&
  Json.otruthy (envelope.jget "acceptance")

/-- JS `String.prototype.trim` on the character list model. -/
def jsTrim (s : String) : String :=
  String.mk (((s.data.dropWhile Char.isWhitespace).reverse.dropWhile
    Char.isWhitespace).reverse)

/-- Split a character list at every occurrence of `c` (full JS
`String.prototype.split` on a one-character separator). -/
def splitCh (c : Char) : List Char → List (List Char)
  | [] => [[]]
  | a :: as =>
    match splitCh c as with
    | [] => [[]]
    | g :: gs => if a = c then [] :: g :: gs else (a :: g) :: gs

/-- The trimmed action string: `String((envelope.execute as any).action ||
"").trim()` (so a falsy `action` value collapses to `""` before the `String`
coercion). -/
def gateActionRaw (envelope : Json) : String :=
  let actionVal := (envelope.jget "execute").bind (·.jget "action")
  jsTrim (if Json.otruthy actionVal then Json.jsToString (actionVal.getD Json.null)
          else "")

/-- First element of `rawAction.split(":", 2)`. -/
def gateService (envelope : Json) : String :=
  String.mk ((splitCh ':' (gateActionRaw envelope).data).headD [])

/-- Second element of `rawAction.split(":", 2)` (empty when absent, matching
the falsiness of `undefined`). -/
def gateOperation (envelope : Json) : String :=
  String.mk (((splitCh ':' (gateActionRaw envelope).data).drop 1).headD [])

/-- The value `String(envelope.intent.actor.id)` computed after validation. -/
def gateActorId (envelope : Json) : String :=
  Json.jsToString
    (((((envelope.jget "intent").bind (·.jget "actor")).bind
      (·.jget "id"))).getD Json.null)

/-- The value `String(envelope.intent.intent)` computed after validation. -/
def gateIntentName (envelope : Json) : String :=
  Json.jsToString (((envelope.jget "intent").bind (·.jget "intent")).getD
    Json.null)

/-- The DENY passthrough reason `coreRes.reason || "core_denied"` (JS `||`:
an empty string also falls back). -/
def coreReasonDefault : Option String → String
  | some r => if r = "" then "core_denied" else r
  | none => "core_denied"

/-- The hash binding `coreRes.executeHash || localExecuteHash` (JS `||`:
an empty string from Core also falls back to the local digest). -/
def executeHashSel (hash : String → String) (coreRes : CoreExecuteResponse)
    (envelope : Json) : String :=
  match coreRes.executeHash with
  | some h => if h = "" then
      computeExecuteHash hash ((envelope.jget "execute").getD Json.null)
    else h
  | none => computeExecuteHash hash ((envelope.jget "execute").getD Json.null)

/-- The hash binding `coreRes.intentHash || localIntentHash`. -/
def intentHashSel (hash : String → String) (coreRes : CoreExecuteResponse)
    (envelope : Json) : String :=
  match coreRes.intentHash with
  | some h => if h = "" then
      computeIntentHash hash ((envelope.jget "intent").getD Json.null)
    else h
  | none => computeIntentHash hash ((envelope.jget "intent").getD Json.null)

/-- The record `gateAndForward` passes to `signReceipt` after PERMIT. -/
def mintParams (hash : String → String) (cfg : AdapterCfg) (envelope : Json)
    (service actorId intentName : String) (coreRes : CoreExecuteResponse) :
    SignReceiptParams :=
  { adapterId := cfg.adapterId
    service
    actorId
    intent := intentName
    executeHash := executeHashSel hash coreRes envelope
    intentHash := intentHashSel hash coreRes envelope
    authorityKeyId := coreRes.authorityKeyId.getD none
    coreIssuedAt := coreRes.issuedAt
    coreExpiresAt := coreRes.expiresAt
    coreTime := coreRes.time
    receiptPrivateKeyPem := cfg.receiptPrivateKeyPem
    receiptTtlSeconds := cfg.receiptTtlSeconds.getD 30 }

/-- The stage of `gateAndForward` after the Core call returned (src/gate.ts
lines 84–147): PERMIT test, hash binding, receipt mint, forward. `service`,
`actorId` and `intentName` are the values the earlier stages computed. -/
def gateAndForwardPostCore (parse : String → Option Json)
    (hash : String → String) (signFn : String → String → String)
    (encodeIso : Int → String) (encB64 : String → String) (uuid : String)
    (now : Int) (cfg : AdapterCfg) (envelope : Json) (service : String)
    (actorId : String) (intentName : String) (coreRes : CoreExecuteResponse)
    (fwdOut : HttpOutcome) : GateRun :=
  if coreRes.decision ≠ "PERMIT" then
    { result := .ok (bareResult coreRes.decision
        (coreReasonDefault coreRes.reason))
      forwardInvoked := false }
  else
    match signReceipt signFn encodeIso uuid now
      (mintParams hash cfg envelope service actorId intentName coreRes) with
    | .error m => { result := .error (.config m), forwardInvoked := false }
    | .ok receipt =>
      match forwardToExecutor parse encB64 cfg.targets service envelope receipt
        fwdOut with
      | .error e => { result := .error e, forwardInvoked := true }
      | .ok (_, forwarded) =>
        { result := .ok
            { decision := "PERMIT"
              reason := some "forwarded_after_core_permit"
              receipt := some receipt
              forwardStatus := some forwarded.status
              forwardBody := some forwarded.body
              executeHash := some (executeHashSel hash coreRes envelope)
              intentHash := some (intentHashSel hash coreRes envelope)
              authorityKeyId := some (coreRes.authorityKeyId.getD none) }
          forwardInvoked := true }

/-- Model of `gateAndForward` (src/gate.ts lines 23–147, the prefix-routing
version): config check, envelope validation, `service:operation` routing,
Core consultation, then `gateAndForwardPostCore`. Effects are explicit
arguments; `coreOut`/`fwdOut` are the transport outcomes of the Core call and
the forward call. -/
def gateAndForward (parse : String → Option Json) (hash : String → String)
    (signFn : String → String → String) (encodeIso : Int → String)
    (encB64 : String → String) (uuid : String) (now : Int) (cfg : AdapterCfg)
    (envelope : Json) (coreOut : HttpOutcome) (fwdOut : HttpOutcome) :
    GateRun :=
  match requireCfg cfg with
  | .error m => { result := .error (.config m), forwardInvoked := false }
  | .ok _ =>
    if ¬ envelopeValid envelope then
      { result := .ok (bareResult "DENY" "invalid_or_missing_gate_request")
        forwardInvoked := false }
    else
      let rawAction := gateActionRaw envelope
      if ¬ rawAction.data.contains ':' then
        { result := .ok (bareResult "DENY" "invalid_action_format")
          forwardInvoked := false }
      else
        let service := gateService envelope
        let operation := gateOperation envelope
        if service = "" ∨ operation = "" then
          { result := .ok (bareResult "DENY" "invalid_action_format")
            forwardInvoked := false }
        else if (cfg.targets.lookup service).isNone then
          { result := .ok (bareResult "DENY" "unknown_forward_target")
            forwardInvoked := false }
        else
          gateAndForwardPostCore parse hash signFn encodeIso encB64 uuid now
            cfg envelope service (gateActorId envelope)
            (gateIntentName envelope) (SolaceCoreClient.execute parse coreOut)
            fwdOut

theorem lexLeN_total : ∀ a b : List Nat, lexLeN a b = true ∨ lexLeN b a = true := by
  intro a
  induction a with
  | nil => intro b; left; rfl
  | cons x xs ih =>
    intro b
    cases b with
    | nil => right; rfl
    | cons y ys =>
      by_cases h1 : x < y
      · left; simp [lexLeN, h1]
      · by_cases h2 : y < x
        · right; simp [lexLeN, h2]
        · rcases ih ys with h | h
          · left; simp [lexLeN, h1, h2, h]
          · right; simp [lexLeN, h1, h2, h]

theorem lexLeN_trans : ∀ a b c : List Nat,
    lexLeN a b = true → lexLeN b c = true → lexLeN a c = true := by
  intro a
  induction a with
  | nil => intro b c _ _; rfl
  | cons x xs ih =>
    intro b c hab hbc
    cases b with
    | nil => simp [lexLeN] at hab
    | cons y ys =>
      cases c with
      | nil => simp [lexLeN] at hbc
      | cons z zs =>
        simp only [lexLeN] at hab hbc ⊢
        by_cases hxy : x < y
        · by_cases hyz : y < z
          · have hxz : x < z := lt_trans hxy hyz
            simp [hxz]
          · by_cases hzy : y > z
            · simp [hyz, hzy] at hbc
            · have hyzeq : y = z := by omega
              subst hyzeq
              simp [hxy]
        · by_cases hyx : x > y
          · simp [hxy, hyx] at hab
          · have hxyeq : x = y := by omega
            subst hxyeq
            by_cases hxz : x < z
            · simp [hxz]
            · by_cases hzx : x > z
              · simp [hxz, hzx] at hbc
              · simp only [hxz, hzx, if_false, gt_iff_lt] at hab hbc ⊢
                simp at hab hbc ⊢
                exact ih ys zs hab hbc

/-- Order on key/value pairs used by the canonicalizer's key sort. -/
def keyLe (p q : String × Json) : Prop := jsStrLe p.1 q.1 = true

theorem keyLe_total (p q : String × Json) : keyLe p q ∨ keyLe q p :=
  lexLeN_total (utf16Units p.1) (utf16Units q.1)

theorem keyLe_trans {p q r : String × Json} : keyLe p q → keyLe q r → keyLe p r :=
  lexLeN_trans (utf16Units p.1) (utf16Units q.1) (utf16Units r.1)

theorem insertKV_perm (p : String × Json) (l : List (String × Json)) :
    (insertKV p l).Perm (p :: l) := by
  induction l with
  | nil => simp [insertKV]
  | cons q qs ih =>
    by_cases h : jsStrLe p.1 q.1
    · simp [insertKV, h]
    · simp only [insertKV, h, if_false]
      exact (ih.cons q).trans (List.Perm.swap p q qs)

theorem pairwise_insertKV {p : String × Json} {l : List (String × Json)}
    (h : l.Pairwise keyLe) : (insertKV p l).Pairwise keyLe := by
  induction l with
  | nil => simp [insertKV]
  | cons q qs ih =>
    rcases List.pairwise_cons.mp h with ⟨hq, hqs⟩
    by_cases hle : jsStrLe p.1 q.1
    · simp only [insertKV, hle, if_true]
      refine List.pairwise_cons.mpr ⟨?_, h⟩
      intro a ha
      rcases List.mem_cons.mp ha with heq | ha
      · subst heq; exact hle
      · exact keyLe_trans hle (hq a ha)
    · simp only [insertKV, hle, if_false]
      refine List.pairwise_cons.mpr ⟨?_, ih hqs⟩
      intro a ha
      have ha' : a ∈ p :: qs := (insertKV_perm p qs).mem_iff.mp ha
      rcases List.mem_cons.mp ha' with heq | ha'
      · subst heq
        rcases keyLe_total a q with hpq | hqp
        · exact absurd hpq hle
        · exact hqp
      · exact hq a ha'

theorem sortKVs_perm (l : List (String × Json)) : (sortKVs l).Perm l := by
  induction l with
  | nil => simp [sortKVs]
  | cons p ps ih =>
    exact (insertKV_perm p (sortKVs ps)).trans (ih.cons p)

theorem pairwise_sortKVs (l : List (String × Json)) : (sortKVs l).Pairwise keyLe := by
  induction l with
  | nil => simp [sortKVs]
  | cons p ps ih => exact pairwise_insertKV ih

/-- Keys are sorted ascending in JS default (UTF-16 code-unit) order at every
object node of a value. -/
inductive KeysSorted : Json → Prop where
  | null : KeysSorted .null
  | bool (b : Bool) : KeysSorted (.bool b)
  | num (n : Int) : KeysSorted (.num n)
  | str (s : String) : KeysSorted (.str s)
  | arr (xs : List Json) : (∀ x ∈ xs, KeysSorted x) → KeysSorted (.arr xs)
  | obj (kvs : List (String × Json)) : kvs.Pairwise keyLe →
      (∀ p ∈ kvs, KeysSorted p.2) → KeysSorted (.obj kvs)

mutual

theorem stableSort_keysSorted (v : Json) : KeysSorted (stableSort v) := by
  cases v with
  | null => exact .null
  | bool b => exact .bool b
  | num n => exact .num n
  | str s => exact .str s
  | arr xs => exact .arr _ (stableSortList_keysSorted xs)
  | obj kvs =>
    refine .obj _ (pairwise_sortKVs _) ?_
    intro p hp
    exact stableSortKVs_keysSorted kvs p
      ((sortKVs_perm (stableSortKVs kvs)).mem_iff.mp hp)

theorem stableSortList_keysSorted (xs : List Json) :
    ∀ x ∈ stableSortList xs, KeysSorted x := by
  cases xs with
  | nil => intro x hx; simp [stableSortList] at hx
  | cons y ys =>
    intro x hx
    rcases List.mem_cons.mp hx with heq | hx
    · subst heq; exact stableSort_keysSorted y
    · exact stableSortList_keysSorted ys x hx

theorem stableSortKVs_keysSorted (kvs : List (String × Json)) :
    ∀ p ∈ stableSortKVs kvs, KeysSorted p.2 := by
  cases kvs with
  | nil => intro p hp; simp [stableSortKVs] at hp
  | cons q qs =>
    intro p hp
    rcases List.mem_cons.mp hp with heq | hp
    · cases q with
      | mk k v =>
        subst heq
        exact stableSort_keysSorted v
    · exact stableSortKVs_keysSorted qs p hp

end

theorem stableSortList_eq_map (xs : List Json) :
    stableSortList xs = xs.map stableSort := by
  induction xs with
  | nil => rfl
  | cons y ys ih => simp [stableSortList, ih]

theorem stableSortKVs_keys (kvs : List (String × Json)) :
    (stableSortKVs kvs).map Prod.fst = kvs.map Prod.fst := by
  induction kvs with
  | nil => rfl
  | cons q qs ih => cases q; simp [stableSortKVs, ih]

/-! Concrete instantiations of the effect parameters, used by the closed
witness and counterexample theorems below. They model one fixed environment:
a table-based `JSON.parse` fragment, an identity hash, a prefixing signer
with its matching verifier, a table-based ISO date codec, and an identity
base64 encoder. -/

/-- A `JSON.parse` model defined on the body texts the concrete runs use. -/
def parseTable : String → Option Json := fun t =>
  if t = "PERMITBODY" then some (Json.obj [("decision", Json.str "PERMIT")])
  else if t = "DENYBODY" then
    some (Json.obj [("decision", Json.str "DENY"), ("reason", Json.str "schema_violation")])
  else if t = "RICHBODY" then
    some (Json.obj
      [("decision", Json.str "PERMIT"), ("reason", Json.str "ok"),
       ("executeHash", Json.str "He"), ("intentHash", Json.str "Hi"),
       ("issuedAt", Json.str "I"), ("expiresAt", Json.str "X"),
       ("time", Json.str "T"), ("authorityKeyId", Json.null)])
  else none

/-- Identity stand-in for `sha256Hex` in concrete runs. -/
def hashId : String → String := fun s => s

/-- Toy Ed25519 signer: prefixes the material. -/
def signToy : String → String → String := fun _ m => "s" ++ m

/-- Verifier matching `signToy`. -/
def verifyToy : String → String → String → Bool := fun _ m sig => sig == "s" ++ m

/-- Table-based `toISOString` model for the clock values the runs use. -/
def isoToy : Int → String := fun t =>
  if t = 0 then "T0" else if t = 30000 then "T30000" else "T?"

/-- Table-based `new Date(s).getTime()` model inverting `isoToy`. -/
def dateToy : String → Option Int := fun s =>
  if s = "T0" then some 0 else if s = "T30000" then some 30000 else none

/-- Identity stand-in for base64 encoding in concrete runs. -/
def b64Id : String → String := fun s => s

/-- A valid adapter configuration with one `payments` target. -/
def cfgW : AdapterCfg :=
  { adapterId := "a1", receiptPrivateKeyPem := "PRIV",
    receiptPublicKeyPem := "PUB", coreBaseUrl := "http://core",
    receiptTtlSeconds := some 30, clockSkewSeconds := some 10,
    targets := [("payments", { url := "http://exec", bearerToken := none })] }

/-- A structurally valid envelope whose action has two colons. -/
def envW : Json :=
  Json.obj
    [("intent", Json.obj [("actor", Json.obj [("id", Json.str "u1")]),
       ("intent", Json.str "refund")]),
     ("execute", Json.obj [("action", Json.str "payments:refund:extra")]),
     ("acceptance", Json.obj [])]

/-- An envelope whose `execute` and `acceptance` are truthy non-mappings. -/
def envStrExec : Json :=
  Json.obj
    [("intent", Json.obj [("actor", Json.obj [("id", Json.str "u1")]),
       ("intent", Json.str "refund")]),
     ("execute", Json.str "x"), ("acceptance", Json.str "y")]

/-- C9 (counterexample): with the key U+FF5F (one UTF-16 unit `0xFF5F`) and
the supplementary-plane key U+10000 (surrogate pair `0xD800 0xDC00`),
`canonicalize` emits the U+10000 key first although its code point is the
larger one, so keys are not emitted in ascending Unicode code-point order for
keys outside the Basic Multilingual Plane. -/
theorem canonicalize_nonbmp_key_order :
    canonicalize (Json.obj [(String.mk [Char.ofNat 0xFF5F], Json.null),
        (String.mk [Char.ofNat 0x10000], Json.null)]) =
      "\x7b\"" ++ String.mk [Char.ofNat 0x10000] ++ "\":null,\"" ++
        String.mk [Char.ofNat 0xFF5F] ++ "\":null\x7d" ∧
    codePointLe (String.mk [Char.ofNat 0xFF5F]) (String.mk [Char.ofNat 0x10000]) = true ∧
    codePointLe (String.mk [Char.ofNat 0x10000]) (String.mk [Char.ofNat 0xFF5F]) = false :=
  ⟨by decide, by decide, by decide⟩

/-- C9 (amended): `canonicalize` emits the keys of every mapping, at every
nesting depth, in ascending UTF-16 code-unit order (the default JS string
sort, which agrees with code-point order exactly when the keys stay inside
the BMP); sequences keep their order; primitives serialize as standard JSON
with no whitespace. -/
theorem canonicalize_keys_utf16_sorted :
    (∀ v, KeysSorted (stableSort v)) ∧
    (∀ v, canonicalize v = stringify (stableSort v)) ∧
    (∀ xs, stableSort (Json.arr xs) = Json.arr (xs.map stableSort)) ∧
    (∀ kvs, ((sortKVs (stableSortKVs kvs)).map Prod.fst).Perm
      (kvs.map Prod.fst)) ∧
    canonicalize Json.null = "null" ∧
    (∀ b, canonicalize (Json.bool b) = if b then "true" else "false") ∧
    (∀ n, canonicalize (Json.num n) = toString n) ∧
    (∀ s, canonicalize (Json.str s) = jsonQuote s) := by
  refine ⟨stableSort_keysSorted, fun _ => rfl, ?_, ?_, rfl, fun _ => rfl,
    fun _ => rfl, fun _ => rfl⟩
  · intro xs
    simp [stableSort, stableSortList_eq_map]
  · intro kvs
    have h := (sortKVs_perm (stableSortKVs kvs)).map Prod.fst
    rwa [stableSortKVs_keys] at h

/-- C7: `verifyReceipt` evaluates exactly the eight rejection predicates of
the spec, in the listed order, returning the reason of the earliest failing
one, and accepts the time window exactly when
`now ∈ [issuedAt − skew, expiresAt + skew]` — it coincides with the
spec-ordered checker on every input. -/
theorem verifyReceipt_eq_spec_ordered (verifyFn : String → String → String → Bool)
    (dateParse : String → Option Int) (receipt : Receipt)
    (receiptPublicKeyPem : String) (now : Int) (clockSkewSeconds : Int) :
    verifyReceipt verifyFn dateParse receipt receiptPublicKeyPem now
      clockSkewSeconds =
    verifyReceiptSpecOrdered verifyFn dateParse receipt receiptPublicKeyPem now
      clockSkewSeconds := by
  unfold verifyReceipt verifyReceiptSpecOrdered
  rcases hI : dateParse receipt.issuedAt with _ | i <;>
    rcases hE : dateParse receipt.expiresAt with _ | e <;>
      simp only [hI, hE] <;> split_ifs <;> first | rfl | omega

/-- C2: the body `forwardToExecutor` sends is built only from
`envelope.intent` and `envelope.execute` — two envelopes agreeing on those
two properties (so in particular envelopes differing only in `acceptance`)
produce the identical forward call, and the body's keys never include
`acceptance`. -/
theorem forwardToExecutor_omits_acceptance (parse : String → Option Json)
    (encB64 : String → String) (targets : List (String × ForwardTarget))
    (service : String) (e1 e2 : Json) (receipt : Receipt) (out : HttpOutcome)
    (hintent : e1.jget "intent" = e2.jget "intent")
    (hexec : e1.jget "execute" = e2.jget "execute") :
    forwardToExecutor parse encB64 targets service e1 receipt out =
      forwardToExecutor parse encB64 targets service e2 receipt out ∧
    (∀ req res, forwardToExecutor parse encB64 targets service e1 receipt out =
        .ok (req, res) →
      ∀ kvs, req.body = Json.obj kvs →
        "acceptance" ∉ kvs.map Prod.fst ∧
        kvs.map Prod.fst ⊆ ["intent", "execute"]) := by
  constructor
  · unfold forwardToExecutor forwardBodyJson
    rw [hintent, hexec]
  · intro req res hok kvs hbody
    unfold forwardToExecutor at hok
    rcases htgt : targets.lookup service with _ | target
    · rw [htgt] at hok; exact absurd hok (by simp)
    · rw [htgt] at hok
      rcases out with _ | ⟨status, text⟩
      · exact absurd hok (by simp)
      · simp only [Except.ok.injEq, Prod.mk.injEq] at hok
        have hreq : req.body = forwardBodyJson e1 := by
          rw [← hok.1]
        rw [hreq] at hbody
        unfold forwardBodyJson at hbody
        have hkvs : kvs =
            (match e1.jget "intent" with
             | some v => [("intent", v)]
             | none => []) ++
            (match e1.jget "execute" with
             | some v => [("execute", v)]
             | none => []) := by
          injection hbody.symm
        subst hkvs
        rcases e1.jget "intent" with _ | vi <;> rcases e1.jget "execute" with _ | ve <;>
          simp

/-- A concrete receipt record for closed runs. -/
def rW : Receipt :=
  { v := 1, receiptId := "rid", adapterId := "a1", service := "payments",
    actorId := "u1", intent := "refund", executeHash := "He",
    intentHash := "Hi", coreDecision := "PERMIT", coreIssuedAt := none,
    coreExpiresAt := none, coreTime := none, authorityKeyId := none,
    issuedAt := "T0", expiresAt := "T30000", signature := "sg" }

/-- The envelope `envW` with a different `acceptance` object. -/
def envAcc2 : Json :=
  Json.obj
    [("intent", Json.obj [("actor", Json.obj [("id", Json.str "u1")]),
       ("intent", Json.str "refund")]),
     ("execute", Json.obj [("action", Json.str "payments:refund:extra")]),
     ("acceptance", Json.obj [("secret", Json.str "token")])]

/-- Witness for C2 at a concrete pair of envelopes that differ only in
`acceptance`. -/
theorem forwardToExecutor_omits_acceptance_witness :
    forwardToExecutor parseTable b64Id cfgW.targets "payments" envW rW
        (.response 200 "") =
      forwardToExecutor parseTable b64Id cfgW.targets "payments" envAcc2 rW
        (.response 200 "") ∧
    (∀ req res, forwardToExecutor parseTable b64Id cfgW.targets "payments" envW
        rW (.response 200 "") = .ok (req, res) →
      ∀ kvs, req.body = Json.obj kvs →
        "acceptance" ∉ kvs.map Prod.fst ∧
        kvs.map Prod.fst ⊆ ["intent", "execute"]) :=
  forwardToExecutor_omits_acceptance parseTable b64Id cfgW.targets "payments"
    envW envAcc2 rW (.response 200 "") rfl rfl

/-- C5: given a decodable header, matching service, and an otherwise valid
receipt, `verifyExecutorRequest` rejects with `execute_hash_mismatch`
exactly when the canonical digest of the received execute object differs
from `receipt.executeHash`, and accepts with that digest when it matches. -/
theorem verifyExecutorRequest_execute_binding (hash : String → String)
    (verifyFn : String → String → String → Bool)
    (dateParse : String → Option Int) (dec : String → Option Receipt)
    (header : Option String) (pub svc : String) (receipt : Receipt)
    (execObj : Json) (now skew : Int)
    (hdec : decodeReceiptHeader dec header = some receipt)
    (hsvc : receipt.service = svc)
    (hok : verifyReceipt verifyFn dateParse receipt pub now skew =
      ⟨true, none⟩) :
    (computeExecuteHash hash execObj ≠ receipt.executeHash →
      verifyExecutorRequest hash verifyFn dateParse dec header pub svc execObj
        now skew = ⟨false, some "execute_hash_mismatch", none, none⟩) ∧
    (computeExecuteHash hash execObj = receipt.executeHash →
      verifyExecutorRequest hash verifyFn dateParse dec header pub svc execObj
        now skew =
        ⟨true, none, some receipt, some (computeExecuteHash hash execObj)⟩) := by
  unfold verifyExecutorRequest
  rw [hdec]
  simp only [hsvc, ne_eq, not_true_eq_false, if_false, hok, ite_not,
    Bool.true_eq_false, if_neg]
  constructor
  · intro hne
    simp [hne]
  · intro heq
    simp [heq]

/-- Trivially-true signature verifier for closed runs that are not about the
signature check. -/
def verifyAny : String → String → String → Bool := fun _ _ _ => true

/-- Header decoder resolving the fixed header value to `rW`. -/
def decHdr : String → Option Receipt := fun s =>
  if s = "HDR" then some rW else none

/-- The receipt `rW` bound to the digest of the execute payload `2`. -/
def rW2 : Receipt := { rW with executeHash := "2" }

/-- Header decoder resolving the fixed header value to `rW2`. -/
def decHdr2 : String → Option Receipt := fun s =>
  if s = "HDR" then some rW2 else none

/-- Witness for C5: a tampered execute payload (digest `"2"`, receipt bound
to `"He"`) is rejected with `execute_hash_mismatch`; the matching payload is
accepted with its digest. -/
theorem verifyExecutorRequest_execute_binding_witness :
    verifyExecutorRequest hashId verifyAny dateToy decHdr (some "HDR") "PUB"
        "payments" (Json.num 2) 0 10 =
      ⟨false, some "execute_hash_mismatch", none, none⟩ ∧
    verifyExecutorRequest hashId verifyAny dateToy decHdr2 (some "HDR") "PUB"
        "payments" (Json.num 2) 0 10 =
      ⟨true, none, some rW2, some (computeExecuteHash hashId (Json.num 2))⟩ :=
  ⟨(verifyExecutorRequest_execute_binding hashId verifyAny dateToy decHdr
      (some "HDR") "PUB" "payments" rW (Json.num 2) 0 10 rfl rfl rfl).1
      (by decide),
   (verifyExecutorRequest_execute_binding hashId verifyAny dateToy decHdr2
      (some "HDR") "PUB" "payments" rW2 (Json.num 2) 0 10 rfl rfl rfl).2
      (by decide)⟩

theorem jget_some_truthy {data : Json} {k : String} {v : Json}
    (h : data.jget k = some v) : data.truthy = true := by
  cases data
  case obj => simp [Json.truthy]
  all_goals simp [Json.jget] at h

theorem decisionField_eq_none {data : Json}
    (h : ∀ d, data.jget "decision" ≠ some (Json.str d)) :
    decisionField data = none := by
  unfold decisionField
  split
  · rcases hd : data.jget "decision" with _ | v
    · rfl
    · rcases v with _ | b | n | s | xs | kvs
      · rfl
      · rfl
      · rfl
      · exact absurd hd (h _)
      · rfl
      · rfl
  · rfl

theorem decisionField_eq_some {data : Json} {d : String}
    (h : data.jget "decision" = some (Json.str d)) :
    decisionField data = some d := by
  unfold decisionField
  rw [jget_some_truthy h]
  simp [h]

theorem strField_eq_some {data : Json} {k h : String}
    (hk : data.jget k = some (Json.str h)) : strField data k = some h := by
  unfold strField
  rw [hk]

theorem safeJson_some {parse : String → Option Json} {text : String}
    {data : Json} (hne : text ≠ "") (hp : parse text = some data) :
    safeJson parse text = data := by
  unfold safeJson
  simp [hne, hp]

theorem execute_ok_normalized (parse : String → Option Json) (status : Int)
    (text : String) (data : Json) (d : String) (hok : httpOk status)
    (hne : text ≠ "") (hp : parse text = some data)
    (hdec : data.jget "decision" = some (Json.str d)) :
    SolaceCoreClient.execute parse (.response status text) =
      { decision := d, reason := strField data "reason",
        executeHash := strField data "executeHash",
        intentHash := strField data "intentHash",
        issuedAt := strField data "issuedAt",
        expiresAt := strField data "expiresAt",
        time := strField data "time",
        authorityKeyId := strOrNullField data "authorityKeyId",
        error := strField data "error" } := by
  simp only [SolaceCoreClient.execute]
  rw [safeJson_some hne hp]
  simp only [hok, not_true_eq_false, if_false, decisionField_eq_some hdec]

/-- C4: `SolaceCoreClient.execute` is total over transport outcomes (it never
raises): a rejected fetch gives the synthetic `core_unreachable` DENY, a
non-2xx response gives `core_http_<status>`, an empty, unparseable, or
decision-less 2xx body gives `core_malformed_response`, and a 2xx body with a
string `decision` is normalized with the optional string fields (and
string-or-null `authorityKeyId`) preserved. -/
theorem coreClient_execute_fail_closed (parse : String → Option Json) :
    (SolaceCoreClient.execute parse .netError =
      syntheticDeny "core_unreachable") ∧
    (∀ status text, ¬ httpOk status →
      SolaceCoreClient.execute parse (.response status text) =
        syntheticDeny ("core_http_" ++ toString status)) ∧
    (∀ status, httpOk status →
      SolaceCoreClient.execute parse (.response status "") =
        syntheticDeny "core_malformed_response") ∧
    (∀ status text, httpOk status → text ≠ "" → parse text = none →
      SolaceCoreClient.execute parse (.response status text) =
        syntheticDeny "core_malformed_response") ∧
    (∀ status text data, httpOk status → text ≠ "" → parse text = some data →
      (∀ d, data.jget "decision" ≠ some (Json.str d)) →
      SolaceCoreClient.execute parse (.response status text) =
        syntheticDeny "core_malformed_response") ∧
    (∀ status text data d, httpOk status → text ≠ "" → parse text = some data →
      data.jget "decision" = some (Json.str d) →
      (SolaceCoreClient.execute parse (.response status text)).decision = d ∧
      (∀ h, data.jget "executeHash" = some (Json.str h) →
        (SolaceCoreClient.execute parse (.response status text)).executeHash =
          some h) ∧
      (∀ h, data.jget "intentHash" = some (Json.str h) →
        (SolaceCoreClient.execute parse (.response status text)).intentHash =
          some h) ∧
      (∀ s, data.jget "issuedAt" = some (Json.str s) →
        (SolaceCoreClient.execute parse (.response status text)).issuedAt =
          some s) ∧
      (∀ s, data.jget "expiresAt" = some (Json.str s) →
        (SolaceCoreClient.execute parse (.response status text)).expiresAt =
          some s) ∧
      (∀ s, data.jget "time" = some (Json.str s) →
        (SolaceCoreClient.execute parse (.response status text)).time =
          some s) ∧
      (∀ a, data.jget "authorityKeyId" = some (Json.str a) →
        (SolaceCoreClient.execute parse
          (.response status text)).authorityKeyId = some (some a)) ∧
      (data.jget "authorityKeyId" = some Json.null →
        (SolaceCoreClient.execute parse
          (.response status text)).authorityKeyId = some none)) := by
  refine ⟨rfl, ?_, ?_, ?_, ?_, ?_⟩
  · intro status text hbad
    simp only [SolaceCoreClient.execute]
    simp [hbad]
  · intro status hok
    simp only [SolaceCoreClient.execute]
    rw [show safeJson parse "" = Json.null from rfl]
    rw [show decisionField Json.null = none from rfl]
    simp [hok]
  · intro status text hok hne hparse
    simp only [SolaceCoreClient.execute]
    rw [show safeJson parse text = Json.obj [("_raw", Json.str text)] by
      unfold safeJson; simp [hne, hparse]]
    rw [decisionField_eq_none (by
      intro d hd
      have hb : ("decision" == "_raw") = false := by decide
      simp [Json.jget, List.lookup, hb] at hd)]
    simp [hok]
  · intro status text data hok hne hparse hnod
    simp only [SolaceCoreClient.execute]
    rw [safeJson_some hne hparse, decisionField_eq_none hnod]
    simp [hok]
  · intro status text data d hok hne hparse hdec
    rw [execute_ok_normalized parse status text data d hok hne hparse hdec]
    refine ⟨rfl, ?_, ?_, ?_, ?_, ?_, ?_, ?_⟩
    · intro h hk; simp [strField_eq_some hk]
    · intro h hk; simp [strField_eq_some hk]
    · intro s hk; simp [strField_eq_some hk]
    · intro s hk; simp [strField_eq_some hk]
    · intro s hk; simp [strField_eq_some hk]
    · intro a hk; simp [strOrNullField, hk]
    · intro hk; simp [strOrNullField, hk]

/-- The parsed object `parseTable` returns for the rich Core body. -/
def richData : Json :=
  Json.obj
    [("decision", Json.str "PERMIT"), ("reason", Json.str "ok"),
     ("executeHash", Json.str "He"), ("intentHash", Json.str "Hi"),
     ("issuedAt", Json.str "I"), ("expiresAt", Json.str "X"),
     ("time", Json.str "T"), ("authorityKeyId", Json.null)]

/-- Witness for C4 at concrete transport outcomes: network failure, HTTP 503,
non-JSON 2xx body, and a rich PERMIT body whose fields are preserved. -/
theorem coreClient_execute_fail_closed_witness :
    SolaceCoreClient.execute parseTable .netError =
      syntheticDeny "core_unreachable" ∧
    SolaceCoreClient.execute parseTable (.response 503 "oops") =
      syntheticDeny ("core_http_" ++ toString (503 : Int)) ∧
    SolaceCoreClient.execute parseTable (.response 200 "junk") =
      syntheticDeny "core_malformed_response" ∧
    (SolaceCoreClient.execute parseTable (.response 200 "RICHBODY")).decision =
      "PERMIT" ∧
    (SolaceCoreClient.execute parseTable
      (.response 200 "RICHBODY")).executeHash = some "He" ∧
    (SolaceCoreClient.execute parseTable
      (.response 200 "RICHBODY")).authorityKeyId = some none :=
  ⟨(coreClient_execute_fail_closed parseTable).1,
   (coreClient_execute_fail_closed parseTable).2.1 503 "oops" (by decide),
   (coreClient_execute_fail_closed parseTable).2.2.2.1 200 "junk" (by decide)
     (by decide) rfl,
   ((coreClient_execute_fail_closed parseTable).2.2.2.2.2 200 "RICHBODY"
     richData "PERMIT" (by decide) (by decide) rfl rfl).1,
   ((coreClient_execute_fail_closed parseTable).2.2.2.2.2 200 "RICHBODY"
     richData "PERMIT" (by decide) (by decide) rfl rfl).2.1 "He" rfl,
   ((coreClient_execute_fail_closed parseTable).2.2.2.2.2 200 "RICHBODY"
     richData "PERMIT" (by decide) (by decide) rfl rfl).2.2.2.2.2.2.2 rfl⟩

/-- The unsigned receipt record `signReceipt` builds before signing. -/
def mintedUnsigned (encodeIso : Int → String) (uuid : String) (now : Int)
    (p : SignReceiptParams) : Receipt :=
  { v := 1
    receiptId := uuid
    adapterId := p.adapterId
    service := p.service
    actorId := p.actorId
    intent := p.intent
    executeHash := p.executeHash
    intentHash := p.intentHash
    coreDecision := "PERMIT"
    coreIssuedAt := p.coreIssuedAt
    coreExpiresAt := p.coreExpiresAt
    coreTime := p.coreTime
    authorityKeyId := p.authorityKeyId
    issuedAt := encodeIso now
    expiresAt := encodeIso (now + p.receiptTtlSeconds * 1000)
    signature := "" }

/-- The receipt `signReceipt` returns on success. -/
def mintedReceipt (signFn : String → String → String)
    (encodeIso : Int → String) (uuid : String) (now : Int)
    (p : SignReceiptParams) : Receipt :=
  { mintedUnsigned encodeIso uuid now p with
    signature := signFn p.receiptPrivateKeyPem
      (receiptSigningMaterial (mintedUnsigned encodeIso uuid now p)) }

theorem signReceipt_eq_minted (signFn : String → String → String)
    (encodeIso : Int → String) (uuid : String) (now : Int)
    (p : SignReceiptParams) (hpriv : p.receiptPrivateKeyPem ≠ "")
    (hadapter : p.adapterId ≠ "") (hservice : p.service ≠ "") :
    signReceipt signFn encodeIso uuid now p =
      .ok (mintedReceipt signFn encodeIso uuid now p) := by
  unfold signReceipt mintedReceipt mintedUnsigned
  rw [if_neg hpriv, if_neg hadapter, if_neg hservice]

/-- C6: receipt round-trip — for every valid `signReceipt` input (non-empty
private key PEM, adapterId and service), with the matching public key and the
date codec inverting on the minted timestamps, `verifyReceipt` accepts the
freshly minted receipt at any time within the receipt's TTL window extended
by the clock skew. -/
theorem signReceipt_verifyReceipt_roundtrip
    (signFn : String → String → String)
    (verifyFn : String → String → String → Bool) (encodeIso : Int → String)
    (dateParse : String → Option Int) (uuid : String)
    (p : SignReceiptParams) (pub : String) (now t skew : Int)
    (hpriv : p.receiptPrivateKeyPem ≠ "") (hadapter : p.adapterId ≠ "")
    (hservice : p.service ≠ "") (hpub : pub ≠ "")
    (hcrypto : ∀ m, verifyFn pub m (signFn p.receiptPrivateKeyPem m) = true)
    (hsig : ∀ m, signFn p.receiptPrivateKeyPem m ≠ "")
    (hdec1 : dateParse (encodeIso now) = some now)
    (hdec2 : dateParse (encodeIso (now + p.receiptTtlSeconds * 1000)) =
      some (now + p.receiptTtlSeconds * 1000))
    (hlo : now - skew * 1000 ≤ t)
    (hhi : t ≤ now + p.receiptTtlSeconds * 1000 + skew * 1000) :
    ∃ r, signReceipt signFn encodeIso uuid now p = .ok r ∧
      verifyReceipt verifyFn dateParse r pub t skew = ⟨true, none⟩ := by
  refine ⟨mintedReceipt signFn encodeIso uuid now p,
    signReceipt_eq_minted signFn encodeIso uuid now p hpriv hadapter hservice,
    ?_⟩
  have hmat : receiptSigningMaterial (mintedReceipt signFn encodeIso uuid now p) =
      receiptSigningMaterial (mintedUnsigned encodeIso uuid now p) := rfl
  have hv : (mintedReceipt signFn encodeIso uuid now p).v = 1 := rfl
  have hcd : (mintedReceipt signFn encodeIso uuid now p).coreDecision =
    "PERMIT" := rfl
  have hsg : (mintedReceipt signFn encodeIso uuid now p).signature =
      signFn p.receiptPrivateKeyPem
        (receiptSigningMaterial (mintedUnsigned encodeIso uuid now p)) := rfl
  have hiA : (mintedReceipt signFn encodeIso uuid now p).issuedAt =
    encodeIso now := rfl
  have hxA : (mintedReceipt signFn encodeIso uuid now p).expiresAt =
    encodeIso (now + p.receiptTtlSeconds * 1000) := rfl
  unfold verifyReceipt
  rw [if_neg hpub, hv, hcd, hsg, hiA, hxA, hmat, hdec1, hdec2]
  rw [if_neg (show ¬ (1 : Int) ≠ 1 by simp)]
  rw [if_neg (show ¬ ("PERMIT" ≠ "PERMIT") by simp)]
  rw [if_neg (hsig (receiptSigningMaterial (mintedUnsigned encodeIso uuid now p)))]
  show (if ¬ (t + skew * 1000 ≥ now) then _ else _) = _
  rw [if_neg (by omega)]
  rw [if_neg (show ¬ ¬ (t - skew * 1000 ≤ now + p.receiptTtlSeconds * 1000)
    by omega)]
  rw [if_neg (by
    rw [hcrypto (receiptSigningMaterial (mintedUnsigned encodeIso uuid now p))]
    simp)]

/-- Signing parameters for the concrete round-trip run. -/
def pW : SignReceiptParams :=
  { adapterId := "a1", service := "payments", actorId := "u1",
    intent := "refund", executeHash := "He", intentHash := "Hi",
    authorityKeyId := none, coreIssuedAt := none, coreExpiresAt := none,
    coreTime := none, receiptPrivateKeyPem := "PRIV",
    receiptTtlSeconds := 30 }

/-- Witness for C6: minting at time 0 with TTL 30 s and verifying at 5 s
succeeds. -/
theorem signReceipt_verifyReceipt_roundtrip_witness :
    ∃ r, signReceipt signToy isoToy "rid" 0 pW = .ok r ∧
      verifyReceipt verifyToy dateToy r "PUB" 5000 10 = ⟨true, none⟩ :=
  signReceipt_verifyReceipt_roundtrip signToy verifyToy isoToy dateToy "rid"
    pW "PUB" 0 5000 10 (by decide) (by decide) (by decide) (by decide)
    (fun m => by simp [verifyToy, signToy])
    (fun m => by
      intro h
      have hlen := congrArg String.length h
      simp [signToy, String.length_append] at hlen
      exact absurd hlen.1 (by decide))
    (by decide) (by decide) (by decide) (by decide)

theorem postCore_not_permit (parse : String → Option Json)
    (hash : String → String) (signFn : String → String → String)
    (encodeIso : Int → String) (encB64 : String → String) (uuid : String)
    (now : Int) (cfg : AdapterCfg) (envelope : Json) (service actorId
    intentName : String) (coreRes : CoreExecuteResponse) (fwdOut : HttpOutcome)
    (h : coreRes.decision ≠ "PERMIT") :
    gateAndForwardPostCore parse hash signFn encodeIso encB64 uuid now cfg
      envelope service actorId intentName coreRes fwdOut =
    { result := .ok (bareResult coreRes.decision
        (coreReasonDefault coreRes.reason))
      forwardInvoked := false } := by
  unfold gateAndForwardPostCore
  rw [if_pos h]

theorem postCore_invoked_permit (parse : String → Option Json)
    (hash : String → String) (signFn : String → String → String)
    (encodeIso : Int → String) (encB64 : String → String) (uuid : String)
    (now : Int) (cfg : AdapterCfg) (envelope : Json) (service actorId
    intentName : String) (coreRes : CoreExecuteResponse)
    (fwdOut : HttpOutcome) :
    (gateAndForwardPostCore parse hash signFn encodeIso encB64 uuid now cfg
      envelope service actorId intentName coreRes fwdOut).forwardInvoked =
        true →
    coreRes.decision = "PERMIT" := by
  by_cases h : coreRes.decision = "PERMIT"
  · intro _; exact h
  · rw [postCore_not_permit parse hash signFn encodeIso encB64 uuid now cfg
      envelope service actorId intentName coreRes fwdOut h]
    intro hfalse
    exact absurd hfalse (by simp)

theorem postCore_ok_reason (parse : String → Option Json)
    (hash : String → String) (signFn : String → String → String)
    (encodeIso : Int → String) (encB64 : String → String) (uuid : String)
    (now : Int) (cfg : AdapterCfg) (envelope : Json) (service actorId
    intentName : String) (coreRes : CoreExecuteResponse) (fwdOut : HttpOutcome)
    (res : GateResult)
    (hok : (gateAndForwardPostCore parse hash signFn encodeIso encB64 uuid now
      cfg envelope service actorId intentName coreRes fwdOut).result =
        .ok res) :
    (res.decision = coreRes.decision ∧
      res.reason = some (coreReasonDefault coreRes.reason) ∧
      res.receipt = none) ∨
    (res.decision = "PERMIT" ∧
      res.reason = some "forwarded_after_core_permit" ∧
      res.receipt ≠ none) := by
  unfold gateAndForwardPostCore at hok
  by_cases h : coreRes.decision ≠ "PERMIT"
  · rw [if_pos h] at hok
    simp only [Except.ok.injEq] at hok
    left
    rw [← hok]
    exact ⟨rfl, rfl, rfl⟩
  · rw [if_neg h] at hok
    split at hok
    · exact absurd hok (by simp)
    · split at hok
      · exact absurd hok (by simp)
      · right
        simp only [Except.ok.injEq] at hok
        rw [← hok]
        exact ⟨rfl, rfl, by simp⟩

theorem bareResult_inj {a b c d : String} (h : bareResult a b = bareResult c d) :
    a = c ∧ b = d := by
  unfold bareResult at h
  simp only [GateResult.mk.injEq, Option.some.injEq] at h
  exact ⟨h.1, h.2.1⟩

theorem gateAndForward_routed (parse : String → Option Json)
    (hash : String → String) (signFn : String → String → String)
    (encodeIso : Int → String) (encB64 : String → String) (uuid : String)
    (now : Int) (cfg : AdapterCfg) (envelope : Json)
    (coreOut fwdOut : HttpOutcome)
    (hcfg : requireCfg cfg = .ok ())
    (hval : envelopeValid envelope = true)
    (hcol : (gateActionRaw envelope).data.contains ':' = true)
    (hsvc : ¬ (gateService envelope = "" ∨ gateOperation envelope = ""))
    (htgt : (cfg.targets.lookup (gateService envelope)).isNone = false) :
    gateAndForward parse hash signFn encodeIso encB64 uuid now cfg envelope
      coreOut fwdOut =
    gateAndForwardPostCore parse hash signFn encodeIso encB64 uuid now cfg
      envelope (gateService envelope) (gateActorId envelope)
      (gateIntentName envelope) (SolaceCoreClient.execute parse coreOut)
      fwdOut := by
  unfold gateAndForward
  rw [hcfg]
  rw [if_neg (by simp [hval]), if_neg (by simpa using hcol), if_neg hsvc,
    if_neg (by simp [htgt])]

theorem gateAndForward_branches (parse : String → Option Json)
    (hash : String → String) (signFn : String → String → String)
    (encodeIso : Int → String) (encB64 : String → String) (uuid : String)
    (now : Int) (cfg : AdapterCfg) (envelope : Json)
    (coreOut fwdOut : HttpOutcome) :
    (∃ m, requireCfg cfg = .error m ∧
      gateAndForward parse hash signFn encodeIso encB64 uuid now cfg envelope
        coreOut fwdOut =
      { result := .error (.config m), forwardInvoked := false }) ∨
    (envelopeValid envelope = false ∧
      gateAndForward parse hash signFn encodeIso encB64 uuid now cfg envelope
        coreOut fwdOut =
      { result := .ok (bareResult "DENY" "invalid_or_missing_gate_request")
        forwardInvoked := false }) ∨
    (envelopeValid envelope = true ∧
      gateAndForward parse hash signFn encodeIso encB64 uuid now cfg envelope
        coreOut fwdOut =
      { result := .ok (bareResult "DENY" "invalid_action_format")
        forwardInvoked := false }) ∨
    (envelopeValid envelope = true ∧
      gateAndForward parse hash signFn encodeIso encB64 uuid now cfg envelope
        coreOut fwdOut =
      { result := .ok (bareResult "DENY" "unknown_forward_target")
        forwardInvoked := false }) ∨
    (envelopeValid envelope = true ∧
      gateAndForward parse hash signFn encodeIso encB64 uuid now cfg envelope
        coreOut fwdOut =
      gateAndForwardPostCore parse hash signFn encodeIso encB64 uuid now cfg
        envelope (gateService envelope) (gateActorId envelope)
        (gateIntentName envelope) (SolaceCoreClient.execute parse coreOut)
        fwdOut) := by
  unfold gateAndForward
  rcases hc : requireCfg cfg with m | u
  · left; exact ⟨m, rfl, rfl⟩
  · by_cases hv : envelopeValid envelope
    · rw [if_neg (by simp [hv])]
      by_cases hcol : (gateActionRaw envelope).data.contains ':'
      · rw [if_neg (by simpa using hcol)]
        by_cases hfmt : gateService envelope = "" ∨ gateOperation envelope = ""
        · rw [if_pos hfmt]
          right; right; left; exact ⟨hv, rfl⟩
        · rw [if_neg hfmt]
          by_cases htgt : (cfg.targets.lookup (gateService envelope)).isNone
          · rw [if_pos htgt]
            right; right; right; left; exact ⟨hv, rfl⟩
          · rw [if_neg htgt]
            right; right; right; right; exact ⟨hv, rfl⟩
      · rw [if_pos (by simpa using hcol)]
        right; right; left; exact ⟨hv, rfl⟩
    · rw [if_pos (by simp [hv])]
      right; left
      exact ⟨by simpa using hv, rfl⟩

/-- C1: whenever the Core client's decision for the envelope is not `PERMIT`
(including every synthetic DENY minted on a Core transport or parsing
failure), `forwardToExecutor` is never invoked; a forward call happens only
on a run where Core returned `PERMIT`; and a routable envelope (config ok,
valid, routable) with a non-PERMIT decision yields a terminal result carrying
Core's decision with the forwarder uninvoked. -/
theorem gate_no_permit_no_forward (parse : String → Option Json)
    (hash : String → String) (signFn : String → String → String)
    (encodeIso : Int → String) (encB64 : String → String) (uuid : String)
    (now : Int) (cfg : AdapterCfg) (envelope : Json)
    (coreOut fwdOut : HttpOutcome) :
    ((SolaceCoreClient.execute parse coreOut).decision ≠ "PERMIT" →
      (gateAndForward parse hash signFn encodeIso encB64 uuid now cfg envelope
        coreOut fwdOut).forwardInvoked = false) ∧
    ((gateAndForward parse hash signFn encodeIso encB64 uuid now cfg envelope
        coreOut fwdOut).forwardInvoked = true →
      (SolaceCoreClient.execute parse coreOut).decision = "PERMIT") ∧
    (requireCfg cfg = .ok () → envelopeValid envelope = true →
      (gateActionRaw envelope).data.contains ':' = true →
      ¬ (gateService envelope = "" ∨ gateOperation envelope = "") →
      (cfg.targets.lookup (gateService envelope)).isNone = false →
      (SolaceCoreClient.execute parse coreOut).decision ≠ "PERMIT" →
      gateAndForward parse hash signFn encodeIso encB64 uuid now cfg envelope
        coreOut fwdOut =
      { result := .ok (bareResult
          (SolaceCoreClient.execute parse coreOut).decision
          (coreReasonDefault (SolaceCoreClient.execute parse coreOut).reason))
        forwardInvoked := false }) := by
  have A : (SolaceCoreClient.execute parse coreOut).decision ≠ "PERMIT" →
      (gateAndForward parse hash signFn encodeIso encB64 uuid now cfg envelope
        coreOut fwdOut).forwardInvoked = false := by
    intro hnp
    rcases gateAndForward_branches parse hash signFn encodeIso encB64 uuid now
      cfg envelope coreOut fwdOut with ⟨m, _, hg⟩ | ⟨_, hg⟩ | ⟨_, hg⟩ |
      ⟨_, hg⟩ | ⟨_, hg⟩
    · rw [hg]
    · rw [hg]
    · rw [hg]
    · rw [hg]
    · rw [hg, postCore_not_permit parse hash signFn encodeIso encB64 uuid now
        cfg envelope (gateService envelope) (gateActorId envelope)
        (gateIntentName envelope) (SolaceCoreClient.execute parse coreOut)
        fwdOut hnp]
  refine ⟨A, ?_, ?_⟩
  · intro hi
    by_contra hnp
    rw [A hnp] at hi
    exact Bool.false_ne_true hi
  · intro hcfg hval hcol hsvc htgt hnp
    rw [gateAndForward_routed parse hash signFn encodeIso encB64 uuid now cfg
      envelope coreOut fwdOut hcfg hval hcol hsvc htgt,
      postCore_not_permit parse hash signFn encodeIso encB64 uuid now cfg
      envelope (gateService envelope) (gateActorId envelope)
      (gateIntentName envelope) (SolaceCoreClient.execute parse coreOut)
      fwdOut hnp]

/-- Witness for C1: a Core DENY (`schema_violation`) on a routable envelope
returns the passthrough DENY and never invokes the forwarder. -/
theorem gate_no_permit_no_forward_witness :
    gateAndForward parseTable hashId signToy isoToy b64Id "rid" 0 cfgW envW
      (.response 200 "DENYBODY") (.response 200 "") =
    { result := .ok (bareResult "DENY" "schema_violation")
      forwardInvoked := false } :=
  (gate_no_permit_no_forward parseTable hashId signToy isoToy b64Id "rid" 0
    cfgW envW (.response 200 "DENYBODY") (.response 200 "")).2.2 rfl rfl rfl
    (by decide) rfl (by decide)

/-- C3 evaluated at the failing input: with Core returning PERMIT and the
forward fetch rejecting, `gateAndForward` does not return any `GateResult` —
the rejection escapes the gate as an uncaught exception (the forwarder was
invoked, and no `DENY`/`forwarding_failed` result is produced). -/
theorem gate_forward_network_error_escapes :
    gateAndForward parseTable hashId signToy isoToy b64Id "rid" 0 cfgW envW
        (.response 200 "PERMITBODY") .netError =
      { result := .error .network, forwardInvoked := true } ∧
    ∀ res : GateResult,
      (gateAndForward parseTable hashId signToy isoToy b64Id "rid" 0 cfgW envW
        (.response 200 "PERMITBODY") .netError).result ≠ .ok res := by
  refine ⟨rfl, ?_⟩
  intro res h
  have he : (gateAndForward parseTable hashId signToy isoToy b64Id "rid" 0 cfgW
      envW (.response 200 "PERMITBODY") .netError).result =
      Except.error JsError.network := rfl
  rw [he] at h
  exact Except.noConfusion h

/-- C8 (counterexample): an envelope whose `execute` is the truthy non-mapping
string `"x"` passes the validation stage — `gateAndForward` rejects it later
with `invalid_action_format`, not with `invalid_or_missing_gate_request` as
the claim requires. -/
theorem gate_validity_counterexample :
    envStrExec.jget "execute" = some (Json.str "x") ∧
    gateAndForward parseTable hashId signToy isoToy b64Id "rid" 0 cfgW
        envStrExec (.response 200 "") (.response 200 "") =
      { result := .ok (bareResult "DENY" "invalid_action_format")
        forwardInvoked := false } ∧
    "invalid_action_format" ≠ "invalid_or_missing_gate_request" :=
  ⟨rfl, rfl, by decide⟩

theorem coreReasonDefault_eq {o : Option String} {s : String}
    (hs : s ≠ "core_denied") (h : coreReasonDefault o = s) : o = some s := by
  rcases o with _ | r
  · simp only [coreReasonDefault] at h
    exact absurd h (Ne.symm hs)
  · simp only [coreReasonDefault] at h
    by_cases hre : r = ""
    · rw [if_pos hre] at h
      exact absurd h (Ne.symm hs)
    · rw [if_neg hre] at h
      rw [h]

/-- C8 (amended): under a loaded configuration, and excluding a Core response
that itself echoes the reason string, `gateAndForward` returns
`DENY(invalid_or_missing_gate_request)` exactly when the envelope fails the
code's truthiness validation (`intent.actor.id`, `intent.intent`, `execute`,
`acceptance` all truthy) — presence as a mapping is not required. -/
theorem gate_invalid_request_iff (parse : String → Option Json)
    (hash : String → String) (signFn : String → String → String)
    (encodeIso : Int → String) (encB64 : String → String) (uuid : String)
    (now : Int) (cfg : AdapterCfg) (envelope : Json)
    (coreOut fwdOut : HttpOutcome)
    (hcfg : requireCfg cfg = .ok ())
    (hcore : (SolaceCoreClient.execute parse coreOut).reason ≠
      some "invalid_or_missing_gate_request") :
    (gateAndForward parse hash signFn encodeIso encB64 uuid now cfg envelope
      coreOut fwdOut).result =
      .ok (bareResult "DENY" "invalid_or_missing_gate_request") ↔
    envelopeValid envelope = false := by
  constructor
  · intro h
    rcases gateAndForward_branches parse hash signFn encodeIso encB64 uuid now
      cfg envelope coreOut fwdOut with ⟨m, hcm, hg⟩ | ⟨hv, hg⟩ | ⟨hv, hg⟩ |
      ⟨hv, hg⟩ | ⟨hv, hg⟩
    · rw [hcm] at hcfg
      exact absurd hcfg (by simp)
    · exact hv
    · rw [hg] at h
      simp only [Except.ok.injEq] at h
      exact absurd (bareResult_inj h).2 (by decide)
    · rw [hg] at h
      simp only [Except.ok.injEq] at h
      exact absurd (bareResult_inj h).2 (by decide)
    · rw [hg] at h
      rcases postCore_ok_reason parse hash signFn encodeIso encB64 uuid now cfg
        envelope (gateService envelope) (gateActorId envelope)
        (gateIntentName envelope) (SolaceCoreClient.execute parse coreOut)
        fwdOut _ h with ⟨_, hr, _⟩ | ⟨_, hr, _⟩
      · have hd : coreReasonDefault
            (SolaceCoreClient.execute parse coreOut).reason =
            "invalid_or_missing_gate_request" := by
          have : some "invalid_or_missing_gate_request" =
              some (coreReasonDefault
                (SolaceCoreClient.execute parse coreOut).reason) := by
            rw [← hr]; rfl
          exact (Option.some.inj this).symm
        exact absurd (coreReasonDefault_eq (by decide) hd) hcore
      · have : ("invalid_or_missing_gate_request" : String) =
            "forwarded_after_core_permit" := by
          have := hr
          rw [show (bareResult "DENY"
            "invalid_or_missing_gate_request").reason =
            some "invalid_or_missing_gate_request" from rfl] at this
          exact Option.some.inj this
        exact absurd this (by decide)
  · intro hv
    unfold gateAndForward
    rw [hcfg, if_pos (by simp [hv])]

/-- Witness for the amended C8 at the string-execute envelope: neither side of
the equivalence holds (the envelope passes truthiness validation, and the
result reason is `invalid_action_format`). -/
theorem gate_invalid_request_iff_witness :
    (gateAndForward parseTable hashId signToy isoToy b64Id "rid" 0 cfgW
      envStrExec (.response 200 "") (.response 200 "")).result =
      .ok (bareResult "DENY" "invalid_or_missing_gate_request") ↔
    envelopeValid envStrExec = false :=
  gate_invalid_request_iff parseTable hashId signToy isoToy b64Id "rid" 0 cfgW
    envStrExec (.response 200 "") (.response 200 "") rfl (by decide)

theorem splitCh_ne_nil (c : Char) (l : List Char) : splitCh c l ≠ [] := by
  cases l with
  | nil => simp [splitCh]
  | cons a as =>
    unfold splitCh
    rcases h : splitCh c as with _ | ⟨g, gs⟩
    · simp
    · by_cases hac : a = c <;> simp [hac]

theorem splitCh_headD (c : Char) (l : List Char) :
    (splitCh c l).headD [] = l.takeWhile (· ≠ c) := by
  induction l with
  | nil => rfl
  | cons a as ih =>
    unfold splitCh
    rcases h : splitCh c as with _ | ⟨g, gs⟩
    · exact absurd h (splitCh_ne_nil c as)
    · by_cases hac : a = c
      · subst hac
        simp [List.takeWhile]
      · have hg : g = as.takeWhile (· ≠ c) := by
          rw [← ih, h]
          rfl
        simp [List.takeWhile, hac, hg]

theorem splitCh_second (c : Char) (l : List Char) :
    ((splitCh c l).drop 1).headD [] =
      ((l.dropWhile (· ≠ c)).drop 1).takeWhile (· ≠ c) := by
  induction l with
  | nil => rfl
  | cons a as ih =>
    unfold splitCh
    rcases h : splitCh c as with _ | ⟨g, gs⟩
    · exact absurd h (splitCh_ne_nil c as)
    · by_cases hac : a = c
      · subst hac
        have hg : g = as.takeWhile (· ≠ a) := by
          have hh := splitCh_headD a as
          rw [h] at hh
          exact hh
        simp [List.dropWhile, hg]
      · simp only [hac, if_false]
        rw [List.dropWhile, show (decide ¬ a = c) = true by simp [hac]]
        show gs.headD [] = _
        have hh : gs = List.drop 1 (splitCh c as) := by
          rw [h]
          rfl
        rw [hh]
        exact ih

/-- C10: routing uses only the text before the first colon of the trimmed
action — when the text before the first colon and the text between it and any
subsequent colon are both non-empty, the service looked up is exactly the
take-while-before-the-first-colon prefix, the request is not rejected as
`invalid_action_format` (excluding a Core response echoing that string), and
the run proceeds to the target lookup on that service. -/
theorem gate_routing_uses_first_colon (parse : String → Option Json)
    (hash : String → String) (signFn : String → String → String)
    (encodeIso : Int → String) (encB64 : String → String) (uuid : String)
    (now : Int) (cfg : AdapterCfg) (envelope : Json)
    (coreOut fwdOut : HttpOutcome)
    (hcfg : requireCfg cfg = .ok ())
    (hval : envelopeValid envelope = true)
    (hcol : (gateActionRaw envelope).data.contains ':' = true)
    (hbefore : (gateActionRaw envelope).data.takeWhile (· ≠ ':') ≠ [])
    (hbetween : (((gateActionRaw envelope).data.dropWhile (· ≠ ':')).drop
      1).takeWhile (· ≠ ':') ≠ [])
    (hcore : (SolaceCoreClient.execute parse coreOut).reason ≠
      some "invalid_action_format") :
    gateService envelope =
      String.mk ((gateActionRaw envelope).data.takeWhile (· ≠ ':')) ∧
    gateOperation envelope =
      String.mk ((((gateActionRaw envelope).data.dropWhile (· ≠ ':')).drop
        1).takeWhile (· ≠ ':')) ∧
    ((cfg.targets.lookup (gateService envelope)).isNone = false →
      gateAndForward parse hash signFn encodeIso encB64 uuid now cfg envelope
        coreOut fwdOut =
      gateAndForwardPostCore parse hash signFn encodeIso encB64 uuid now cfg
        envelope (gateService envelope) (gateActorId envelope)
        (gateIntentName envelope) (SolaceCoreClient.execute parse coreOut)
        fwdOut) ∧
    ((cfg.targets.lookup (gateService envelope)).isNone = true →
      gateAndForward parse hash signFn encodeIso encB64 uuid now cfg envelope
        coreOut fwdOut =
      { result := .ok (bareResult "DENY" "unknown_forward_target")
        forwardInvoked := false }) ∧
    (∀ res, (gateAndForward parse hash signFn encodeIso encB64 uuid now cfg
        envelope coreOut fwdOut).result = .ok res →
      res.reason ≠ some "invalid_action_format") := by
  have ha : gateService envelope =
      String.mk ((gateActionRaw envelope).data.takeWhile (· ≠ ':')) := by
    unfold gateService
    rw [splitCh_headD]
  have hb : gateOperation envelope =
      String.mk ((((gateActionRaw envelope).data.dropWhile (· ≠ ':')).drop
        1).takeWhile (· ≠ ':')) := by
    unfold gateOperation
    rw [splitCh_second]
  have hserv : gateService envelope ≠ "" := by
    rw [ha]
    intro h
    exact hbefore (by simpa using congrArg String.data h)
  have hop : gateOperation envelope ≠ "" := by
    rw [hb]
    intro h
    exact hbetween (by simpa using congrArg String.data h)
  have hsvc : ¬ (gateService envelope = "" ∨ gateOperation envelope = "") := by
    rintro (h | h)
    · exact hserv h
    · exact hop h
  have hunk : (cfg.targets.lookup (gateService envelope)).isNone = true →
      gateAndForward parse hash signFn encodeIso encB64 uuid now cfg envelope
        coreOut fwdOut =
      { result := .ok (bareResult "DENY" "unknown_forward_target")
        forwardInvoked := false } := by
    intro htgt
    unfold gateAndForward
    rw [hcfg, if_neg (by simp [hval]), if_neg (by simpa using hcol),
      if_neg hsvc, if_pos htgt]
  refine ⟨ha, hb, ?_, hunk, ?_⟩
  · intro htgt
    exact gateAndForward_routed parse hash signFn encodeIso encB64 uuid now
      cfg envelope coreOut fwdOut hcfg hval hcol hsvc htgt
  · intro res hres
    by_cases htgt : (cfg.targets.lookup (gateService envelope)).isNone
    · rw [hunk htgt] at hres
      simp only [Except.ok.injEq] at hres
      rw [← hres]
      intro hcontra
      have := Option.some.inj hcontra
      exact absurd this (by decide)
    · rw [gateAndForward_routed parse hash signFn encodeIso encB64 uuid now
        cfg envelope coreOut fwdOut hcfg hval hcol hsvc (by simpa using htgt)]
        at hres
      rcases postCore_ok_reason parse hash signFn encodeIso encB64 uuid now cfg
        envelope (gateService envelope) (gateActorId envelope)
        (gateIntentName envelope) (SolaceCoreClient.execute parse coreOut)
        fwdOut res hres with ⟨_, hr, _⟩ | ⟨_, hr, _⟩
      · rw [hr]
        intro hcontra
        have hd := Option.some.inj hcontra
        exact absurd (coreReasonDefault_eq (by decide) hd) hcore
      · rw [hr]
        intro hcontra
        exact absurd (Option.some.inj hcontra) (by decide)

/-- Witness for C10: the two-colon action `"payments:refund:extra"` routes to
service `payments` with operation `refund`, and the run proceeds past the
format check to the target lookup. -/
theorem gate_routing_uses_first_colon_witness :
    gateService envW = "payments" ∧
    gateOperation envW = "refund" ∧
    gateAndForward parseTable hashId signToy isoToy b64Id "rid" 0 cfgW envW
      (.response 200 "DENYBODY") (.response 200 "") =
    gateAndForwardPostCore parseTable hashId signToy isoToy b64Id "rid" 0 cfgW
      envW "payments" (gateActorId envW) (gateIntentName envW)
      (SolaceCoreClient.execute parseTable (.response 200 "DENYBODY"))
      (.response 200 "") := by
  have h := gate_routing_uses_first_colon parseTable hashId signToy isoToy
    b64Id "rid" 0 cfgW envW (.response 200 "DENYBODY") (.response 200 "")
    rfl rfl rfl (by decide) (by decide) (by decide)
  refine ⟨by decide, by decide, ?_⟩
  have h3 := h.2.2.1 (by decide)
  simpa using h3
